import Mathlib

/-!
Shallow embedding of the pi-hole client's record codec and reconciliation layer
(`local_dns.go`, `local_cname.go`, `api_errors.go`).

Go strings are modelled as Lean `String` (lists of Unicode scalar values); the
few byte-level operations (UTF-8 percent-escaping) expand each character to its
UTF-8 bytes explicitly.  The HTTP transport and the outer JSON envelope decode
of the list responses are the external collaborator: the `List` operations take
the decoded array of raw lines directly, and the mutation operations take the
collaborator's response status/body as parameters and return, alongside the Go
result, the request path that was sent (so that the encoded path segment is
observable in theorems).
-/

/-! ### Go string primitives (`strings`, `strconv`) -/

/-- `unicode.IsSpace` for the scalar values Go recognises as white space:
'\t', '\n', '\v', '\f', '\r', ' ', U+0085, U+00A0, and the Unicode
White_Space code points U+1680, U+2000–U+200A, U+2028, U+2029, U+202F,
U+205F, U+3000. -/
def goIsSpace (c : Char) : Bool :=
  c.toNat = 9 ∨ c.toNat = 10 ∨ c.toNat = 11 ∨ c.toNat = 12 ∨ c.toNat = 13 ∨
  c.toNat = 32 ∨ c.toNat = 0x85 ∨ c.toNat = 0xA0 ∨ c.toNat = 0x1680 ∨
  (0x2000 ≤ c.toNat ∧ c.toNat ≤ 0x200A) ∨ c.toNat = 0x2028 ∨ c.toNat = 0x2029 ∨
  c.toNat = 0x202F ∨ c.toNat = 0x205F ∨ c.toNat = 0x3000

/-- `strings.TrimSpace`: drop leading and trailing white space. -/
def goTrimSpace (s : String) : String :=
  ⟨((s.data.dropWhile goIsSpace).reverse.dropWhile goIsSpace).reverse⟩

/-- Worker for `goFields`: `acc` holds the characters of the current field,
in reverse order. -/
def goFieldsAux : List Char → List Char → List String
  | [], acc => if acc.isEmpty then [] else [⟨acc.reverse⟩]
  | c :: rest, acc =>
    if goIsSpace c then
      if acc.isEmpty then goFieldsAux rest []
      else (⟨acc.reverse⟩ : String) :: goFieldsAux rest []
    else goFieldsAux rest (c :: acc)

/-- `strings.Fields`: split around runs of white space; no empty fields. -/
def goFields (s : String) : List String := goFieldsAux s.data []

/-- Split a character list at the first occurrence of `sep`;
`none` when `sep` does not occur.  Models `strings.Index` plus the two
slices taken around the found index. -/
def splitAtFirstChar (sep : Char) : List Char → Option (List Char × List Char)
  | [] => none
  | c :: rest =>
    if c = sep then some ([], rest)
    else
      match splitAtFirstChar sep rest with
      | none => none
      | some (before, after) => some (c :: before, after)

/-- `strings.Split(s, ",")`: always returns at least one (possibly empty)
field; a separator at either end yields an empty field there. -/
def goSplitComma : List Char → List String
  | [] => [""]
  | c :: rest =>
    if c = ',' then "" :: goSplitComma rest
    else
      match goSplitComma rest with
      | [] => [⟨[c]⟩]
      | f :: fs => (⟨c :: f.data⟩ : String) :: fs

/-- `strings.Split` on `,`, on a `String`. -/
def goSplitCommaStr (s : String) : List String := goSplitComma s.data

def isASCIIDigit (c : Char) : Bool := 48 ≤ c.toNat ∧ c.toNat ≤ 57

/-- `strconv.Atoi`: optional sign, then one or more decimal digits, nothing
else; the value must fit a 64-bit signed integer (Go returns `ErrRange`,
i.e. a non-nil error, outside that range, and every caller in this code
base only distinguishes nil from non-nil). -/
def goAtoi (s : String) : Option Int :=
  let (neg, digits) :=
    match s.data with
    | '-' :: rest => (true, rest)
    | '+' :: rest => (false, rest)
    | l => (false, l)
  if digits.isEmpty then none
  else if digits.all isASCIIDigit then
    let n : Nat := digits.foldl (fun acc d => acc * 10 + (d.toNat - 48)) 0
    let v : Int := if neg then -(n : Int) else (n : Int)
    if -(2 ^ 63) ≤ v ∧ v < 2 ^ 63 then some v else none
  else none

/-- ASCII lower-casing of one character. -/
def asciiLower (c : Char) : Char :=
  if 65 ≤ c.toNat ∧ c.toNat ≤ 90 then Char.ofNat (c.toNat + 32) else c

/-- Case-insensitive equality of two characters.  Go's `strings.EqualFold`
applies Unicode simple folding; the domains this layer compares are folded
here by ASCII case only, with all other characters compared exactly. -/
def charFoldEq (a b : Char) : Bool := asciiLower a = asciiLower b

def listFoldEq : List Char → List Char → Bool
  | [], [] => true
  | a :: as, b :: bs => charFoldEq a b && listFoldEq as bs
  | _, _ => false

/-- `strings.EqualFold`. -/
def goEqualFold (s t : String) : Bool := listFoldEq s.data t.data

/-! ### URL path-segment escaping (`net/url.PathEscape`) -/

def upperHexDigit (n : Nat) : Char :=
  if n < 10 then Char.ofNat (48 + n) else Char.ofNat (55 + n)

/-- Go's `shouldEscape(c, encodePathSegment)`: unescaped are the
alphanumerics, the unreserved marks `- _ . ~`, and the reserved characters
`$ & + : = ? @`; everything else — in particular `/ ; ,`, the space, and
every byte ≥ 0x80 — is escaped. -/
def shouldEscapePathSegment (b : Nat) : Bool :=
  if (65 ≤ b ∧ b ≤ 90) ∨ (97 ≤ b ∧ b ≤ 122) ∨ (48 ≤ b ∧ b ≤ 57) then false
  else if b = 45 ∨ b = 95 ∨ b = 46 ∨ b = 126 then false
  else if b = 36 ∨ b = 38 ∨ b = 43 ∨ b = 58 ∨ b = 61 ∨ b = 63 ∨ b = 64 then false
  else true

/-- UTF-8 encoding of one scalar value, as byte values. -/
def utf8Bytes (c : Char) : List Nat :=
  let n := c.toNat
  if n < 0x80 then [n]
  else if n < 0x800 then [0xC0 + n / 64, 0x80 + n % 64]
  else if n < 0x10000 then [0xE0 + n / 4096, 0x80 + n / 64 % 64, 0x80 + n % 64]
  else [0xF0 + n / 262144, 0x80 + n / 4096 % 64, 0x80 + n / 64 % 64, 0x80 + n % 64]

/-- One byte of `url.PathEscape` output: `%XX` with upper-case hex when the
byte needs escaping, else the byte itself (only bytes < 0x80 survive
unescaped, so the character round-trips). -/
def pathEscapeByte (b : Nat) : List Char :=
  if shouldEscapePathSegment b then ['%', upperHexDigit (b / 16), upperHexDigit (b % 16)]
  else [Char.ofNat b]

/-- `url.PathEscape`. -/
def goPathEscape (s : String) : String :=
  ⟨(s.data.flatMap utf8Bytes).flatMap pathEscapeByte⟩

/-! ### JSON values and `encoding/json` decoding (`api_errors.go` support)

`json.Unmarshal` is modelled in two stages: a character-level parser of the
JSON grammar producing a `Json` value, then structure-directed assignment
into the target Go struct.  Go reports one combined `error`; every caller in
this code base only tests it against nil, so the model collapses all decode
failures to `none`. -/

inductive Json where
  | null
  | jbool (b : Bool)
  | num (lexeme : String)
  | str (s : String)
  | arr (elems : List Json)
  | obj (fields : List (String × Json))

def isJSONSpace (c : Char) : Bool := c = ' ' ∨ c = '\t' ∨ c = '\n' ∨ c = '\r'

def skipJSONSpace (l : List Char) : List Char := l.dropWhile isJSONSpace

def hexDigitVal (c : Char) : Option Nat :=
  if 48 ≤ c.toNat ∧ c.toNat ≤ 57 then some (c.toNat - 48)
  else if 65 ≤ c.toNat ∧ c.toNat ≤ 70 then some (c.toNat - 55)
  else if 97 ≤ c.toNat ∧ c.toNat ≤ 102 then some (c.toNat - 87)
  else none

def hex4Val (h1 h2 h3 h4 : Char) : Option Nat :=
  match hexDigitVal h1, hexDigitVal h2, hexDigitVal h3, hexDigitVal h4 with
  | some a, some b, some c, some d => some (a * 4096 + b * 256 + c * 16 + d)
  | _, _, _, _ => none

def simpleEscapeChar (c : Char) : Option Char :=
  if c = '"' then some '"'
  else if c = '\\' then some '\\'
  else if c = '/' then some '/'
  else if c = 'b' then some (Char.ofNat 8)
  else if c = 'f' then some (Char.ofNat 12)
  else if c = 'n' then some '\n'
  else if c = 'r' then some (Char.ofNat 13)
  else if c = 't' then some '\t'
  else none

/-- Body of a JSON string after the opening quote; returns the decoded
string and the input after the closing quote.  `\uXXXX` escapes combine
surrogate pairs; a lone surrogate decodes to U+FFFD, as in Go. -/
def parseJSONStringBody : Nat → List Char → Option (String × List Char)
  | 0, _ => none
  | _, [] => none
  | fuel + 1, c :: rest =>
    if c = '"' then some ("", rest)
    else if c = '\\' then
      match rest with
      | 'u' :: h1 :: h2 :: h3 :: h4 :: rest2 =>
        match hex4Val h1 h2 h3 h4 with
        | none => none
        | some n =>
          if 0xD800 ≤ n ∧ n ≤ 0xDBFF then
            match rest2 with
            | '\\' :: 'u' :: g1 :: g2 :: g3 :: g4 :: rest3 =>
              match hex4Val g1 g2 g3 g4 with
              | some m =>
                if 0xDC00 ≤ m ∧ m ≤ 0xDFFF then
                  match parseJSONStringBody fuel rest3 with
                  | some (s, r) =>
                    some (⟨Char.ofNat (0x10000 + (n - 0xD800) * 1024 + (m - 0xDC00)) :: s.data⟩, r)
                  | none => none
                else
                  match parseJSONStringBody fuel rest2 with
                  | some (s, r) => some (⟨Char.ofNat 0xFFFD :: s.data⟩, r)
                  | none => none
              | none =>
                match parseJSONStringBody fuel rest2 with
                | some (s, r) => some (⟨Char.ofNat 0xFFFD :: s.data⟩, r)
                | none => none
            | _ =>
              match parseJSONStringBody fuel rest2 with
              | some (s, r) => some (⟨Char.ofNat 0xFFFD :: s.data⟩, r)
              | none => none
          else if 0xDC00 ≤ n ∧ n ≤ 0xDFFF then
            match parseJSONStringBody fuel rest2 with
            | some (s, r) => some (⟨Char.ofNat 0xFFFD :: s.data⟩, r)
            | none => none
          else
            match parseJSONStringBody fuel rest2 with
            | some (s, r) => some (⟨Char.ofNat n :: s.data⟩, r)
            | none => none
      | e :: rest2 =>
        match simpleEscapeChar e with
        | some d =>
          match parseJSONStringBody fuel rest2 with
          | some (s, r) => some (⟨d :: s.data⟩, r)
          | none => none
        | none => none
      | [] => none
    else if c.toNat < 0x20 then none
    else
      match parseJSONStringBody fuel rest with
      | some (s, r) => some (⟨c :: s.data⟩, r)
      | none => none

def spanDigits (l : List Char) : List Char × List Char :=
  (l.takeWhile isASCIIDigit, l.dropWhile isASCIIDigit)

/-- Exponent part of a JSON number, given the lexeme so far. -/
def parseNumExp (lexeme : List Char) (l : List Char) : Option (Json × List Char) :=
  match l with
  | e :: rest =>
    if e = 'e' ∨ e = 'E' then
      let (sign, rest2) :=
        match rest with
        | '+' :: r => (['+'], r)
        | '-' :: r => (['-'], r)
        | r => (([] : List Char), r)
      let (ds, rest3) := spanDigits rest2
      if ds.isEmpty then none
      else some (.num ⟨lexeme ++ e :: sign ++ ds⟩, rest3)
    else some (.num ⟨lexeme⟩, l)
  | [] => some (.num ⟨lexeme⟩, [])

/-- Fraction and exponent parts of a JSON number. -/
def parseNumFrac (lexeme : List Char) (l : List Char) : Option (Json × List Char) :=
  match l with
  | '.' :: rest =>
    let (ds, rest2) := spanDigits rest
    if ds.isEmpty then none else parseNumExp (lexeme ++ '.' :: ds) rest2
  | _ => parseNumExp lexeme l

/-- A JSON number: optional minus, then `0` or a nonzero-led digit run,
then optional fraction and exponent.  The lexeme is kept verbatim. -/
def parseJSONNumber (l : List Char) : Option (Json × List Char) :=
  let (minus, l1) :=
    match l with
    | '-' :: r => ((['-'] : List Char), r)
    | r => ([], r)
  match l1 with
  | '0' :: rest => parseNumFrac (minus ++ ['0']) rest
  | c :: _ =>
    if isASCIIDigit c then
      let (ds, rest) := spanDigits l1
      parseNumFrac (minus ++ ds) rest
    else none
  | [] => none

/-- Members of a JSON object after the opening brace (first member next);
`pv` parses one value. -/
def parseJSONMembers (pv : List Char → Option (Json × List Char)) :
    Nat → List Char → Option (List (String × Json) × List Char)
  | 0, _ => none
  | fuel + 1, l =>
    match skipJSONSpace l with
    | '"' :: rest =>
      match parseJSONStringBody (rest.length + 1) rest with
      | none => none
      | some (key, rest2) =>
        match skipJSONSpace rest2 with
        | ':' :: rest3 =>
          match pv rest3 with
          | none => none
          | some (v, rest4) =>
            match skipJSONSpace rest4 with
            | ',' :: rest5 =>
              match parseJSONMembers pv fuel rest5 with
              | some (ms, r) => some ((key, v) :: ms, r)
              | none => none
            | '}' :: rest5 => some ([(key, v)], rest5)
            | _ => none
        | _ => none
    | _ => none

/-- Elements of a JSON array after the opening bracket (first element
next); `pv` parses one value. -/
def parseJSONElems (pv : List Char → Option (Json × List Char)) :
    Nat → List Char → Option (List Json × List Char)
  | 0, _ => none
  | fuel + 1, l =>
    match pv l with
    | none => none
    | some (v, rest) =>
      match skipJSONSpace rest with
      | ',' :: rest2 =>
        match parseJSONElems pv fuel rest2 with
        | some (vs, r) => some (v :: vs, r)
        | none => none
      | ']' :: rest2 => some ([v], rest2)
      | _ => none

/-- One JSON value; the fuel bounds the nesting depth. -/
def parseJSONValue : Nat → List Char → Option (Json × List Char)
  | 0, _ => none
  | fuel + 1, l =>
    match skipJSONSpace l with
    | 'n' :: 'u' :: 'l' :: 'l' :: rest => some (.null, rest)
    | 't' :: 'r' :: 'u' :: 'e' :: rest => some (.jbool true, rest)
    | 'f' :: 'a' :: 'l' :: 's' :: 'e' :: rest => some (.jbool false, rest)
    | '"' :: rest =>
      match parseJSONStringBody (rest.length + 1) rest with
      | some (s, r) => some (.str s, r)
      | none => none
    | '[' :: rest =>
      match skipJSONSpace rest with
      | ']' :: rest2 => some (.arr [], rest2)
      | l2 =>
        match parseJSONElems (parseJSONValue fuel) (l2.length + 1) l2 with
        | some (vs, r) => some (.arr vs, r)
        | none => none
    | '{' :: rest =>
      match skipJSONSpace rest with
      | '}' :: rest2 => some (.obj [], rest2)
      | l2 =>
        match parseJSONMembers (parseJSONValue fuel) (l2.length + 1) l2 with
        | some (ms, r) => some (.obj ms, r)
        | none => none
    | l2 => parseJSONNumber l2

/-- Parse a whole input as one JSON value; trailing non-space input is an
error, as in `json.Unmarshal`. -/
def jsonParse (body : String) : Option Json :=
  match parseJSONValue (body.data.length + 1) body.data with
  | some (v, rest) => if (skipJSONSpace rest).isEmpty then some v else none
  | none => none

/-! ### `api_errors.go` -/

/-- `apiErrorDetails`: the decoded `error` object of the envelope. -/
structure apiErrorDetails where
  Key : String := ""
  Message : String := ""
  Hint : Json := .null

/-- `apiErrorPayload`: the envelope; `Error` is a Go pointer, `none` when
the field was absent or JSON null. -/
structure apiErrorPayload where
  Error : Option apiErrorDetails := none

/-- Assignment of an object's members into `apiErrorDetails`, in member
order (later duplicates overwrite), with Go's case-insensitive field-name
match; a value of the wrong type is a decode error. -/
def unmarshalDetailsFields : List (String × Json) → apiErrorDetails → Option apiErrorDetails
  | [], d => some d
  | (k, v) :: rest, d =>
    if goEqualFold k "key" then
      match v with
      | .str s => unmarshalDetailsFields rest { d with Key := s }
      | .null => unmarshalDetailsFields rest d
      | _ => none
    else if goEqualFold k "message" then
      match v with
      | .str s => unmarshalDetailsFields rest { d with Message := s }
      | .null => unmarshalDetailsFields rest d
      | _ => none
    else if goEqualFold k "hint" then unmarshalDetailsFields rest { d with Hint := v }
    else unmarshalDetailsFields rest d

/-- Assignment of an object's members into `apiErrorPayload`.  A null
`error` member sets the pointer to nil; an object member decodes into the
(possibly already allocated) details struct; any other type errors. -/
def unmarshalPayloadFields : List (String × Json) → apiErrorPayload → Option apiErrorPayload
  | [], p => some p
  | (k, v) :: rest, p =>
    if goEqualFold k "error" then
      match v with
      | .null => unmarshalPayloadFields rest { p with Error := none }
      | .obj fs =>
        match unmarshalDetailsFields fs (p.Error.getD {}) with
        | some d => unmarshalPayloadFields rest { p with Error := some d }
        | none => none
      | _ => none
    else unmarshalPayloadFields rest p

/-- `json.Unmarshal(body, &payload)` for `apiErrorPayload`: the body must
be a complete JSON document whose top-level value is an object or null. -/
def jsonUnmarshalPayload (body : String) : Option apiErrorPayload :=
  match jsonParse body with
  | some .null => some {}
  | some (.obj fields) => unmarshalPayloadFields fields {}
  | some _ => none
  | none => none

/-- The Go error values this layer can produce.  Wrapping via
`fmt.Errorf(..., %w, err)` is modelled by constructors carrying the inner
error; the sentinel values of `errors.New` are the two nullary `errLocal*`
constructors.  Message formatting details are not modelled beyond the data
each error carries. -/
inductive GoError where
  /-- `ErrorLocalDNSNotFound = errors.New("local dns record not found")` -/
  | errLocalDNSNotFound
  /-- `ErrorLocalCNAMENotFound = errors.New("local CNAME record not found")` -/
  | errLocalCNAMENotFound
  /-- `fmt.Errorf("invalid DNS record: %q", raw)` -/
  | invalidDNSRecord (raw : String)
  /-- `fmt.Errorf("invalid CNAME record: %q", raw)` -/
  | invalidCNAMERecord (raw : String)
  /-- `fmt.Errorf("invalid TTL in CNAME record %q: %w", raw, err)` -/
  | invalidCNAMETTL (raw : String)
  /-- `fmt.Errorf("empty response body")` -/
  | emptyResponseBody
  /-- a non-nil error from `json.Unmarshal` in `parseAPIError` -/
  | jsonUnmarshalFailed
  /-- `fmt.Errorf("missing error payload")` -/
  | missingErrorPayload
  /-- `fmt.Errorf("received unexpected status code %d %s", status, string(body))` -/
  | unexpectedStatus (status : Int) (body : String)
  /-- `&DNSAPIError{...}` -/
  | dnsAPIError (StatusCode : Int) (Key Message : String) (Hint : Json)
  /-- `&CNAMEAPIError{...}` -/
  | cnameAPIError (StatusCode : Int) (Key Message : String) (Hint : Json)
  /-- `fmt.Errorf("%w: %s", ErrorLocalDNSNotFound, domain)` -/
  | dnsNotFound (domain : String)
  /-- `fmt.Errorf("%w: %s", ErrorLocalCNAMENotFound, domain)` -/
  | cnameNotFound (domain : String)
  /-- `fmt.Errorf("failed to parse customDNS list body: %w", err)` -/
  | wrapParseDNSList (inner : GoError)
  /-- `fmt.Errorf("failed to parse custom CNAME list body: %w", err)` -/
  | wrapParseCNAMEList (inner : GoError)
  /-- `fmt.Errorf("failed to fetch custom DNS records: %w", err)` -/
  | wrapFetchDNS (inner : GoError)
  /-- `fmt.Errorf("failed to fetch custom CNAME records: %w", err)` -/
  | wrapFetchCNAME (inner : GoError)
  /-- `fmt.Errorf("failed looking up custom DNS record %s for deletion: %w", domain, err)` -/
  | wrapDeleteLookupDNS (domain : String) (inner : GoError)
  /-- `fmt.Errorf("failed looking up CNAME record %s for deletion: %w", domain, err)` -/
  | wrapDeleteLookupCNAME (domain : String) (inner : GoError)

/-- `errors.Is(e, ErrorLocalDNSNotFound)`: walk the `%w` unwrap chain
looking for the DNS sentinel. -/
def errorsIsDNSNotFound : GoError → Bool
  | .errLocalDNSNotFound => true
  | .dnsNotFound _ => true
  | .wrapParseDNSList inner => errorsIsDNSNotFound inner
  | .wrapParseCNAMEList inner => errorsIsDNSNotFound inner
  | .wrapFetchDNS inner => errorsIsDNSNotFound inner
  | .wrapFetchCNAME inner => errorsIsDNSNotFound inner
  | .wrapDeleteLookupDNS _ inner => errorsIsDNSNotFound inner
  | .wrapDeleteLookupCNAME _ inner => errorsIsDNSNotFound inner
  | _ => false

/-- `errors.Is(e, ErrorLocalCNAMENotFound)`. -/
def errorsIsCNAMENotFound : GoError → Bool
  | .errLocalCNAMENotFound => true
  | .cnameNotFound _ => true
  | .wrapParseDNSList inner => errorsIsCNAMENotFound inner
  | .wrapParseCNAMEList inner => errorsIsCNAMENotFound inner
  | .wrapFetchDNS inner => errorsIsCNAMENotFound inner
  | .wrapFetchCNAME inner => errorsIsCNAMENotFound inner
  | .wrapDeleteLookupDNS _ inner => errorsIsCNAMENotFound inner
  | .wrapDeleteLookupCNAME _ inner => errorsIsCNAMENotFound inner
  | _ => false

/-- `parseAPIError`: empty body, then decode, then require the error
object. -/
def parseAPIError (body : String) : Except GoError apiErrorDetails :=
  if body = "" then .error .emptyResponseBody
  else
    match jsonUnmarshalPayload body with
    | none => .error .jsonUnmarshalFailed
    | some payload =>
      match payload.Error with
      | none => .error .missingErrorPayload
      | some details => .ok details

/-- `newDNSAPIError`. -/
def newDNSAPIError (status : Int) (body : String) : GoError :=
  match parseAPIError body with
  | .ok d => .dnsAPIError status d.Key d.Message d.Hint
  | .error _ => .unexpectedStatus status body

/-- `newCNAMEAPIError`. -/
def newCNAMEAPIError (status : Int) (body : String) : GoError :=
  match parseAPIError body with
  | .ok d => .cnameAPIError status d.Key d.Message d.Hint
  | .error _ => .unexpectedStatus status body

/-! ### `local_dns.go` -/

structure DNSRecord where
  IP : String := ""
  Domain : String := ""
  TTL : Int := 0
  HasTTL : Bool := false
  Comment : String := ""
  /-- the unexported `raw` field: the untouched original line -/
  raw : String := ""

/-- The first `#` of the trimmed line splits it into the initial comment
(text after the `#`, trimmed) and the working line (text before it,
trimmed); with no `#` the comment is empty and the whole line is kept. -/
def hostCommentSplit (line : String) : String × String :=
  match splitAtFirstChar '#' line.data with
  | none => ("", line)
  | some (before, after) => (goTrimSpace ⟨after⟩, goTrimSpace ⟨before⟩)

/-- `strings.TrimSpace(strings.Join([]string{base, extra}, " "))`. -/
def joinComment (base extra : String) : String :=
  goTrimSpace (base ++ " " ++ extra)

/-- `parseDNSRecord`. -/
def parseDNSRecord (raw : String) : Except GoError DNSRecord :=
  let line := goTrimSpace raw
  if line = "" then .error (.invalidDNSRecord raw)
  else
    let cs := hostCommentSplit line
    match goFields cs.2 with
    | p0 :: p1 :: rest =>
      let record : DNSRecord := { IP := p0, Domain := p1, Comment := cs.1, raw := raw }
      match rest with
      | [] => .ok record
      | f3 :: rest4 =>
        match goAtoi f3 with
        | some t =>
          let record := { record with TTL := t, HasTTL := true }
          match rest4 with
          | [] => .ok record
          | _ :: _ =>
            .ok { record with Comment := joinComment record.Comment (String.intercalate " " rest4) }
        | none =>
          .ok { record with Comment := joinComment record.Comment (String.intercalate " " (f3 :: rest4)) }
    | _ => .error (.invalidDNSRecord raw)

/-- `dnsRecordListResponse.toDNSRecordList`: parse every line, stopping at
the first parse error. -/
def toDNSRecordList : List String → Except GoError (List DNSRecord)
  | [] => .ok []
  | entry :: rest =>
    match parseDNSRecord entry with
    | .error e => .error e
    | .ok record =>
      match toDNSRecordList rest with
      | .error e => .error e
      | .ok list => .ok (record :: list)

/-- The `for` loop of `localDNSGet`: first record whose domain matches
case-insensitively. -/
def findDNSRecord (records : List DNSRecord) (domain : String) : Option DNSRecord :=
  match records with
  | [] => none
  | r :: rest => if goEqualFold r.Domain domain then some r else findDNSRecord rest domain

/-- `localDNSList`, taking the decoded `hosts` array of the list response
(the HTTP fetch and envelope decode are the transport collaborator). -/
def localDNSList (hosts : List String) : Except GoError (List DNSRecord) :=
  match toDNSRecordList hosts with
  | .error e => .error (.wrapParseDNSList e)
  | .ok records => .ok records

/-- `localDNSGet`. -/
def localDNSGet (hosts : List String) (domain : String) : Except GoError DNSRecord :=
  match localDNSList hosts with
  | .error e => .error (.wrapFetchDNS e)
  | .ok records =>
    match findDNSRecord records domain with
    | some record => .ok record
    | none => .error (.dnsNotFound domain)

/-- `localDNSCreate`.  `putStatus`/`putBody` are the transport's response
to the PUT; `after` is the `hosts` array the follow-up `Get` fetches.  The
second component is the PUT path sent. -/
def localDNSCreate (putStatus : Int) (putBody : String) (after : List String)
    (domain IP : String) : Except GoError DNSRecord × String :=
  let value := IP ++ "%20" ++ domain
  let path := "/api/config/dns/hosts/" ++ value
  if putStatus ≠ 201 then (.error (newDNSAPIError putStatus putBody), path)
  else (localDNSGet after domain, path)

/-- `localDNSDelete`.  `hosts` is the array the lookup `Get` fetches;
`delStatus`/`delBody` are the transport's response to the DELETE.  The
second component is the DELETE path sent, `none` when no DELETE request
was issued. -/
def localDNSDelete (hosts : List String) (delStatus : Int) (delBody : String)
    (domain : String) : Except GoError Unit × Option String :=
  match localDNSGet hosts domain with
  | .error e =>
    if errorsIsDNSNotFound e then (.ok (), none)
    else (.error (.wrapDeleteLookupDNS domain e), none)
  | .ok record =>
    let value := record.IP ++ "%20" ++ record.Domain
    let path := "/api/config/dns/hosts/" ++ value
    if delStatus ≠ 204 then (.error (newDNSAPIError delStatus delBody), some path)
    else (.ok (), some path)

/-! ### `local_cname.go` -/

structure CNAMERecord where
  Domain : String := ""
  Target : String := ""
  TTL : Int := 0
  HasTTL : Bool := false
  /-- the unexported `raw` field: the trimmed original tuple -/
  raw : String := ""

/-- `parseCNAMERecord`. -/
def parseCNAMERecord (raw : String) : Except GoError CNAMERecord :=
  let entry := goSplitCommaStr raw
  if entry.length < 2 ∨ entry.length > 3 then .error (.invalidCNAMERecord raw)
  else
    let record : CNAMERecord :=
      { Domain := goTrimSpace (entry.getD 0 "")
        Target := goTrimSpace (entry.getD 1 "")
        raw := goTrimSpace raw }
    if entry.length = 3 then
      let ttlStr := goTrimSpace (entry.getD 2 "")
      if ttlStr ≠ "" then
        match goAtoi ttlStr with
        | none => .error (.invalidCNAMETTL raw)
        | some ttl => .ok { record with TTL := ttl, HasTTL := true }
      else .ok record
    else .ok record

/-- `cnameRecordListResponse.toCNAMERecordList`: parse every tuple,
stopping at the first parse error. -/
def toCNAMERecordList : List String → Except GoError (List CNAMERecord)
  | [] => .ok []
  | entry :: rest =>
    match parseCNAMERecord entry with
    | .error e => .error e
    | .ok record =>
      match toCNAMERecordList rest with
      | .error e => .error e
      | .ok list => .ok (record :: list)

/-- `escapeCNAMEValue`: `url.PathEscape`, then every remaining literal
comma replaced by `%2C` (`strings.ReplaceAll` with a one-character
pattern). -/
def escapeCNAMEValue (value : String) : String :=
  ⟨(goPathEscape value).data.flatMap (fun c => if c = ',' then ['%', '2', 'C'] else [c])⟩

/-- `encodeCNAMERecord` (on a non-nil record; the Go function maps a nil
pointer to `""` before reaching this logic). -/
def encodeCNAMERecord (record : CNAMERecord) : String :=
  if record.raw ≠ "" ∧ record.Domain ≠ "" then escapeCNAMEValue record.raw
  else
    let parts := [goTrimSpace record.Domain, goTrimSpace record.Target] ++
      (if record.HasTTL then [toString record.TTL] else [])
    escapeCNAMEValue (String.intercalate "," parts)

/-- The `for` loop of `localCNAME.Get`. -/
def findCNAMERecord (records : List CNAMERecord) (domain : String) : Option CNAMERecord :=
  match records with
  | [] => none
  | r :: rest => if goEqualFold r.Domain domain then some r else findCNAMERecord rest domain

/-- `localCNAME.List`, taking the decoded `cnameRecords` array of the list
response. -/
def localCNAMEList (cnames : List String) : Except GoError (List CNAMERecord) :=
  match toCNAMERecordList cnames with
  | .error e => .error (.wrapParseCNAMEList e)
  | .ok records => .ok records

/-- `localCNAME.Get`. -/
def localCNAMEGet (cnames : List String) (domain : String) : Except GoError CNAMERecord :=
  match localCNAMEList cnames with
  | .error e => .error (.wrapFetchCNAME e)
  | .ok records =>
    match findCNAMERecord records domain with
    | some record => .ok record
    | none => .error (.cnameNotFound domain)

/-- `localCNAME.CreateRecord`.  `putStatus`/`putBody` are the transport's
response to the PUT; `after` is the `cnameRecords` array the follow-up
`Get` fetches.  The second component is the PUT path sent. -/
def localCNAMECreateRecord (putStatus : Int) (putBody : String) (after : List String)
    (record : CNAMERecord) : Except GoError CNAMERecord × String :=
  let value := encodeCNAMERecord record
  let path := "/api/config/dns/cnameRecords/" ++ value
  if putStatus ≠ 201 then (.error (newCNAMEAPIError putStatus putBody), path)
  else (localCNAMEGet after record.Domain, path)

/-- `localCNAME.Create`: delegates to `CreateRecord` with only the domain
and target set. -/
def localCNAMECreate (putStatus : Int) (putBody : String) (after : List String)
    (domain target : String) : Except GoError CNAMERecord × String :=
  localCNAMECreateRecord putStatus putBody after { Domain := domain, Target := target }

/-- `localCNAME.Delete`. -/
def localCNAMEDelete (cnames : List String) (delStatus : Int) (delBody : String)
    (domain : String) : Except GoError Unit × Option String :=
  match localCNAMEGet cnames domain with
  | .error e =>
    if errorsIsCNAMENotFound e then (.ok (), none)
    else (.error (.wrapDeleteLookupCNAME domain e), none)
  | .ok record =>
    let value := encodeCNAMERecord record
    let path := "/api/config/dns/cnameRecords/" ++ value
    if delStatus ≠ 204 then (.error (newCNAMEAPIError delStatus delBody), some path)
    else (.ok (), some path)

/-! ### Spec-side encoders (for comparison against the code's encoders) -/

/-- Modelled from the spec (§4.3, host records), for comparison with the
code: re-use a non-empty `RawLine` verbatim, otherwise construct
`"<IP> <Domain>"`, then percent-escape the value for a URL path segment
(which renders every literal space as `%20`). -/
def specHostSegment (record : DNSRecord) : String :=
  if record.raw ≠ "" then goPathEscape record.raw
  else goPathEscape (record.IP ++ " " ++ record.Domain)

/-- Modelled from the spec (§4.3, alias records) as the claim states it,
for comparison with the code: re-use `RawTuple` verbatim whenever the
record carries one, otherwise construct `"<Domain>,<Target>[,<TTL>]"`,
then percent-escape and replace surviving commas with `%2C`. -/
def claimCNAMESegment (record : CNAMERecord) : String :=
  if record.raw ≠ "" then escapeCNAMEValue record.raw
  else
    escapeCNAMEValue (record.Domain ++ "," ++ record.Target ++
      (if record.HasTTL then "," ++ toString record.TTL else ""))

/-- The alias-record encoding as amended: the raw tuple is re-used only
when the record also has a non-empty `Domain`; reconstruction trims the
domain and target fields. -/
def amendedCNAMESegment (record : CNAMERecord) : String :=
  if record.raw ≠ "" ∧ record.Domain ≠ "" then escapeCNAMEValue record.raw
  else
    escapeCNAMEValue (goTrimSpace record.Domain ++ "," ++ goTrimSpace record.Target ++
      (if record.HasTTL then "," ++ toString record.TTL else ""))

/-! ### Helper lemmas -/

theorem findDNSRecord_eq_none (records : List DNSRecord) (domain : String)
    (h : ∀ r ∈ records, goEqualFold r.Domain domain = false) :
    findDNSRecord records domain = none := by
  induction records with
  | nil => rfl
  | cons r rest ih =>
    have hr := h r (List.mem_cons_self r rest)
    simp [findDNSRecord, hr, ih (fun x hx => h x (List.mem_cons_of_mem _ hx))]

theorem findDNSRecord_append_first (pre : List DNSRecord) (r : DNSRecord)
    (post : List DNSRecord) (domain : String)
    (hpre : ∀ x ∈ pre, goEqualFold x.Domain domain = false)
    (hr : goEqualFold r.Domain domain = true) :
    findDNSRecord (pre ++ r :: post) domain = some r := by
  induction pre with
  | nil => simp [findDNSRecord, hr]
  | cons p ps ih =>
    have hp := hpre p (by simp)
    simp only [List.cons_append, findDNSRecord, hp, Bool.false_eq_true, if_false]
    exact ih (fun x hx => hpre x (by simp [hx]))

theorem findCNAMERecord_eq_none (records : List CNAMERecord) (domain : String)
    (h : ∀ r ∈ records, goEqualFold r.Domain domain = false) :
    findCNAMERecord records domain = none := by
  induction records with
  | nil => rfl
  | cons r rest ih =>
    have hr := h r (List.mem_cons_self r rest)
    simp [findCNAMERecord, hr, ih (fun x hx => h x (List.mem_cons_of_mem _ hx))]

theorem findCNAMERecord_append_first (pre : List CNAMERecord) (r : CNAMERecord)
    (post : List CNAMERecord) (domain : String)
    (hpre : ∀ x ∈ pre, goEqualFold x.Domain domain = false)
    (hr : goEqualFold r.Domain domain = true) :
    findCNAMERecord (pre ++ r :: post) domain = some r := by
  induction pre with
  | nil => simp [findCNAMERecord, hr]
  | cons p ps ih =>
    have hp := hpre p (by simp)
    simp only [List.cons_append, findCNAMERecord, hp, Bool.false_eq_true, if_false]
    exact ih (fun x hx => hpre x (by simp [hx]))

theorem toDNSRecordList_ok_of_all (hosts : List String)
    (h : ∀ l ∈ hosts, ∃ r, parseDNSRecord l = .ok r) :
    ∃ records, toDNSRecordList hosts = .ok records ∧ records.length = hosts.length ∧
      ∀ i (hi : i < hosts.length) (hi2 : i < records.length),
        parseDNSRecord (hosts.get ⟨i, hi⟩) = .ok (records.get ⟨i, hi2⟩) := by
  induction hosts with
  | nil =>
    exact ⟨[], rfl, rfl, fun i hi _ => absurd hi (Nat.not_lt_zero i)⟩
  | cons l rest ih =>
    obtain ⟨r, hr⟩ := h l (by simp)
    obtain ⟨rs, hrs, hlen, hpt⟩ := ih (fun x hx => h x (by simp [hx]))
    refine ⟨r :: rs, by simp [toDNSRecordList, hr, hrs], by simp [hlen], ?_⟩
    intro i hi hi2
    cases i with
    | zero => simpa using hr
    | succ j =>
      simpa using hpt j (by simpa using hi) (by simpa using hi2)

theorem toDNSRecordList_first_error (pre : List String) (bad : String)
    (rest : List String) (e : GoError)
    (hpre : ∀ l ∈ pre, ∃ r, parseDNSRecord l = .ok r)
    (hbad : parseDNSRecord bad = .error e) :
    toDNSRecordList (pre ++ bad :: rest) = .error e := by
  induction pre with
  | nil => simp [toDNSRecordList, hbad]
  | cons p ps ih =>
    obtain ⟨r, hr⟩ := hpre p (by simp)
    have hrec := ih (fun x hx => hpre x (by simp [hx]))
    simp [toDNSRecordList, hr, hrec]

theorem toCNAMERecordList_ok_of_all (cnames : List String)
    (h : ∀ l ∈ cnames, ∃ r, parseCNAMERecord l = .ok r) :
    ∃ records, toCNAMERecordList cnames = .ok records ∧ records.length = cnames.length ∧
      ∀ i (hi : i < cnames.length) (hi2 : i < records.length),
        parseCNAMERecord (cnames.get ⟨i, hi⟩) = .ok (records.get ⟨i, hi2⟩) := by
  induction cnames with
  | nil =>
    exact ⟨[], rfl, rfl, fun i hi _ => absurd hi (Nat.not_lt_zero i)⟩
  | cons l rest ih =>
    obtain ⟨r, hr⟩ := h l (by simp)
    obtain ⟨rs, hrs, hlen, hpt⟩ := ih (fun x hx => h x (by simp [hx]))
    refine ⟨r :: rs, by simp [toCNAMERecordList, hr, hrs], by simp [hlen], ?_⟩
    intro i hi hi2
    cases i with
    | zero => simpa using hr
    | succ j =>
      simpa using hpt j (by simpa using hi) (by simpa using hi2)

theorem toCNAMERecordList_first_error (pre : List String) (bad : String)
    (rest : List String) (e : GoError)
    (hpre : ∀ l ∈ pre, ∃ r, parseCNAMERecord l = .ok r)
    (hbad : parseCNAMERecord bad = .error e) :
    toCNAMERecordList (pre ++ bad :: rest) = .error e := by
  induction pre with
  | nil => simp [toCNAMERecordList, hbad]
  | cons p ps ih =>
    obtain ⟨r, hr⟩ := hpre p (by simp)
    have hrec := ih (fun x hx => hpre x (by simp [hx]))
    simp [toCNAMERecordList, hr, hrec]

/-! ### Claim theorems -/

/-- C3: for every domain absent from the collection, `Delete` (host and
alias) returns success with no DELETE request issued — the not-found
outcome of the preceding `Get` is absorbed as a no-op, not surfaced as a
NotFound error. -/
theorem C3_delete_absent_domain_is_noop_success (hosts cnames : List String)
    (dStat : Int) (dBody : String) (domain : String) :
    (∀ records, toDNSRecordList hosts = .ok records →
       (∀ r ∈ records, goEqualFold r.Domain domain = false) →
       localDNSDelete hosts dStat dBody domain = (.ok (), none))
    ∧ (∀ records, toCNAMERecordList cnames = .ok records →
       (∀ r ∈ records, goEqualFold r.Domain domain = false) →
       localCNAMEDelete cnames dStat dBody domain = (.ok (), none)) := by
  constructor
  · intro records hlist habs
    have hget : localDNSGet hosts domain = .error (.dnsNotFound domain) := by
      simp [localDNSGet, localDNSList, hlist, findDNSRecord_eq_none records domain habs]
    simp [localDNSDelete, hget, errorsIsDNSNotFound]
  · intro records hlist habs
    have hget : localCNAMEGet cnames domain = .error (.cnameNotFound domain) := by
      simp [localCNAMEGet, localCNAMEList, hlist, findCNAMERecord_eq_none records domain habs]
    simp [localCNAMEDelete, hget, errorsIsCNAMENotFound]

/-- Witness for C3 at concrete collections that do not contain the
requested domain. -/
theorem C3_witness :
    localDNSDelete ["127.0.0.1 example.com"] 0 "" "missing.test" = (.ok (), none)
    ∧ localCNAMEDelete ["example.com,target.test"] 0 "" "missing.test" = (.ok (), none) := by
  constructor
  · exact (C3_delete_absent_domain_is_noop_success ["127.0.0.1 example.com"]
      ["example.com,target.test"] 0 "" "missing.test").1
      [{ IP := "127.0.0.1", Domain := "example.com", raw := "127.0.0.1 example.com" }]
      rfl (by decide)
  · exact (C3_delete_absent_domain_is_noop_success ["127.0.0.1 example.com"]
      ["example.com,target.test"] 0 "" "missing.test").2
      [{ Domain := "example.com", Target := "target.test", raw := "example.com,target.test" }]
      rfl (by decide)

/-- C4: decoding a list response fails as a whole at the first malformed
line, in line order, producing no partial collection; when every line
parses the result has one record per line in the same order (both the host
and the alias list decoders). -/
theorem C4_list_decode_all_or_first_error (hosts cnames : List String) :
    ((∀ l ∈ hosts, ∃ r, parseDNSRecord l = .ok r) →
       ∃ records, toDNSRecordList hosts = .ok records ∧ records.length = hosts.length ∧
         ∀ i (hi : i < hosts.length) (hi2 : i < records.length),
           parseDNSRecord (hosts.get ⟨i, hi⟩) = .ok (records.get ⟨i, hi2⟩))
    ∧ (∀ pre bad rest e, hosts = pre ++ bad :: rest →
       (∀ l ∈ pre, ∃ r, parseDNSRecord l = .ok r) →
       parseDNSRecord bad = .error e →
       toDNSRecordList hosts = .error e)
    ∧ ((∀ l ∈ cnames, ∃ r, parseCNAMERecord l = .ok r) →
       ∃ records, toCNAMERecordList cnames = .ok records ∧ records.length = cnames.length ∧
         ∀ i (hi : i < cnames.length) (hi2 : i < records.length),
           parseCNAMERecord (cnames.get ⟨i, hi⟩) = .ok (records.get ⟨i, hi2⟩))
    ∧ (∀ pre bad rest e, cnames = pre ++ bad :: rest →
       (∀ l ∈ pre, ∃ r, parseCNAMERecord l = .ok r) →
       parseCNAMERecord bad = .error e →
       toCNAMERecordList cnames = .error e) := by
  refine ⟨toDNSRecordList_ok_of_all hosts, ?_, toCNAMERecordList_ok_of_all cnames, ?_⟩
  · intro pre bad rest e hsplit hpre hbad
    rw [hsplit]
    exact toDNSRecordList_first_error pre bad rest e hpre hbad
  · intro pre bad rest e hsplit hpre hbad
    rw [hsplit]
    exact toCNAMERecordList_first_error pre bad rest e hpre hbad

/-- Witness for C4: a malformed second line fails the whole host-list
decode with that line's parse error even though the first line is fine. -/
theorem C4_witness :
    toDNSRecordList ["127.0.0.1 example.com", "127.0.0.1"]
      = .error (.invalidDNSRecord "127.0.0.1") := by
  exact (C4_list_decode_all_or_first_error ["127.0.0.1 example.com", "127.0.0.1"] []).2.1
    ["127.0.0.1 example.com"] "127.0.0.1" [] (.invalidDNSRecord "127.0.0.1") rfl
    (fun l hl => by
      rw [List.mem_singleton] at hl
      exact ⟨{ IP := "127.0.0.1", Domain := "example.com", raw := "127.0.0.1 example.com" },
        by rw [hl]; rfl⟩)
    rfl

/-- C8: `Get(domain)` returns the first record of the fetched list whose
domain matches case-insensitively; with no match it returns the NotFound
error carrying the requested domain (host and alias sides). -/
theorem C8_get_first_match_or_notfound (hosts cnames : List String) (domain : String) :
    ((∀ records pre r post, localDNSList hosts = .ok records →
        records = pre ++ r :: post →
        (∀ x ∈ pre, goEqualFold x.Domain domain = false) →
        goEqualFold r.Domain domain = true →
        localDNSGet hosts domain = .ok r)
     ∧ (∀ records, localDNSList hosts = .ok records →
        (∀ x ∈ records, goEqualFold x.Domain domain = false) →
        localDNSGet hosts domain = .error (.dnsNotFound domain)))
    ∧ ((∀ records pre r post, localCNAMEList cnames = .ok records →
        records = pre ++ r :: post →
        (∀ x ∈ pre, goEqualFold x.Domain domain = false) →
        goEqualFold r.Domain domain = true →
        localCNAMEGet cnames domain = .ok r)
     ∧ (∀ records, localCNAMEList cnames = .ok records →
        (∀ x ∈ records, goEqualFold x.Domain domain = false) →
        localCNAMEGet cnames domain = .error (.cnameNotFound domain))) := by
  refine ⟨⟨?_, ?_⟩, ?_, ?_⟩
  · intro records pre r post hlist hsplit hpre hr
    simp [localDNSGet, hlist, hsplit, findDNSRecord_append_first pre r post domain hpre hr]
  · intro records hlist habs
    simp [localDNSGet, hlist, findDNSRecord_eq_none records domain habs]
  · intro records pre r post hlist hsplit hpre hr
    simp [localCNAMEGet, hlist, hsplit, findCNAMERecord_append_first pre r post domain hpre hr]
  · intro records hlist habs
    simp [localCNAMEGet, hlist, findCNAMERecord_eq_none records domain habs]

/-- Witness for C8: the second host record wins when only it matches, with
ASCII-case-insensitive comparison; an alias lookup with no match yields
the NotFound error carrying the requested domain. -/
theorem C8_witness :
    localDNSGet ["1.2.3.4 a.test", "5.6.7.8 b.test"] "B.TEST"
      = .ok { IP := "5.6.7.8", Domain := "b.test", raw := "5.6.7.8 b.test" }
    ∧ localCNAMEGet ["a.test,b.test"] "missing.test"
      = .error (.cnameNotFound "missing.test") := by
  constructor
  · exact (C8_get_first_match_or_notfound ["1.2.3.4 a.test", "5.6.7.8 b.test"]
      ["a.test,b.test"] "B.TEST").1.1
      [{ IP := "1.2.3.4", Domain := "a.test", raw := "1.2.3.4 a.test" },
       { IP := "5.6.7.8", Domain := "b.test", raw := "5.6.7.8 b.test" }]
      [{ IP := "1.2.3.4", Domain := "a.test", raw := "1.2.3.4 a.test" }]
      { IP := "5.6.7.8", Domain := "b.test", raw := "5.6.7.8 b.test" } []
      rfl rfl (by decide) (by decide)
  · exact (C8_get_first_match_or_notfound ["1.2.3.4 a.test", "5.6.7.8 b.test"]
      ["a.test,b.test"] "missing.test").2.2
      [{ Domain := "a.test", Target := "b.test", raw := "a.test,b.test" }]
      rfl (by decide)

/-- C10: after the server accepts a creation with status 201, `Create`
returns exactly the result of the follow-up `Get` on the requested domain,
so a created record that does not appear in the immediately re-fetched
collection makes the whole `Create` report a NotFound failure instead of
returning the submitted record (host `Create` and alias `CreateRecord`). -/
theorem C10_create_returns_followup_get :
    (∀ (putBody : String) (after : List String) (domain IP : String),
       (localDNSCreate 201 putBody after domain IP).1 = localDNSGet after domain)
    ∧ (localDNSCreate 201 "" [] "example.com" "127.0.0.1").1
        = .error (.dnsNotFound "example.com")
    ∧ (∀ (putBody : String) (after : List String) (record : CNAMERecord),
       (localCNAMECreateRecord 201 putBody after record).1 = localCNAMEGet after record.Domain)
    ∧ (localCNAMECreateRecord 201 "" [] { Domain := "example.com", Target := "target.test" }).1
        = .error (.cnameNotFound "example.com") := by
  refine ⟨fun putBody after domain IP => ?_, rfl, fun putBody after record => ?_, rfl⟩
  · simp [localDNSCreate]
  · simp [localCNAMECreateRecord]

theorem fields_of_trim_empty : goFields (hostCommentSplit "").2 = [] := rfl

theorem trim_ne_of_fields_cons (raw p0 : String) (ps : List String)
    (hf : goFields (hostCommentSplit (goTrimSpace raw)).2 = p0 :: ps) :
    goTrimSpace raw ≠ "" := by
  intro heq
  rw [heq, fields_of_trim_empty] at hf
  exact List.noConfusion hf

theorem parseDNSRecord_ok_of_two_fields (raw p0 p1 : String) (rest : List String)
    (hf : goFields (hostCommentSplit (goTrimSpace raw)).2 = p0 :: p1 :: rest) :
    ∃ r, parseDNSRecord raw = .ok r ∧ r.IP = p0 ∧ r.Domain = p1 := by
  have hne := trim_ne_of_fields_cons raw p0 (p1 :: rest) hf
  cases rest with
  | nil =>
    refine ⟨DNSRecord.mk p0 p1 0 false (hostCommentSplit (goTrimSpace raw)).1 raw,
      ?_, rfl, rfl⟩
    simp [parseDNSRecord, hne, hf]
  | cons f3 rest4 =>
    cases hA : goAtoi f3 with
    | some t =>
      cases rest4 with
      | nil =>
        refine ⟨DNSRecord.mk p0 p1 t true (hostCommentSplit (goTrimSpace raw)).1 raw,
          ?_, rfl, rfl⟩
        simp [parseDNSRecord, hne, hf, hA]
      | cons x xs =>
        refine ⟨DNSRecord.mk p0 p1 t true
          (joinComment (hostCommentSplit (goTrimSpace raw)).1
            (String.intercalate " " (x :: xs))) raw, ?_, rfl, rfl⟩
        simp [parseDNSRecord, hne, hf, hA]
    | none =>
      refine ⟨DNSRecord.mk p0 p1 0 false
        (joinComment (hostCommentSplit (goTrimSpace raw)).1
          (String.intercalate " " (f3 :: rest4))) raw, ?_, rfl, rfl⟩
      simp [parseDNSRecord, hne, hf, hA]

/-- C7: a host-record line fails to parse exactly when it is empty after
trimming or when its pre-comment portion splits into fewer than two
whitespace-separated fields; on success the first field is the IP and the
second the domain, whatever whitespace separated them. -/
theorem C7_host_parse_error_iff_too_few_fields (raw : String) :
    ((∃ e, parseDNSRecord raw = .error e) ↔
       goTrimSpace raw = "" ∨ (goFields (hostCommentSplit (goTrimSpace raw)).2).length < 2)
    ∧ (∀ p0 p1 rest, goFields (hostCommentSplit (goTrimSpace raw)).2 = p0 :: p1 :: rest →
        ∃ r, parseDNSRecord raw = .ok r ∧ r.IP = p0 ∧ r.Domain = p1) := by
  refine ⟨⟨?_, ?_⟩, fun p0 p1 rest hf => parseDNSRecord_ok_of_two_fields raw p0 p1 rest hf⟩
  · rintro ⟨e, he⟩
    by_contra hc
    push_neg at hc
    obtain ⟨hne, hlen⟩ := hc
    rcases hfs : goFields (hostCommentSplit (goTrimSpace raw)).2 with _ | ⟨p0, _ | ⟨p1, rest⟩⟩
    · rw [hfs] at hlen; simp at hlen
    · rw [hfs] at hlen; simp at hlen
    · obtain ⟨r, hr, -, -⟩ := parseDNSRecord_ok_of_two_fields raw p0 p1 rest hfs
      rw [he] at hr
      exact Except.noConfusion hr
  · intro h
    rcases h with h | h
    · exact ⟨.invalidDNSRecord raw, by simp [parseDNSRecord, h]⟩
    · by_cases hne : goTrimSpace raw = ""
      · exact ⟨.invalidDNSRecord raw, by simp [parseDNSRecord, hne]⟩
      · rcases hfs : goFields (hostCommentSplit (goTrimSpace raw)).2 with _ | ⟨p0, _ | ⟨p1, rest⟩⟩
        · exact ⟨.invalidDNSRecord raw, by simp [parseDNSRecord, hne, hfs]⟩
        · exact ⟨.invalidDNSRecord raw, by simp [parseDNSRecord, hne, hfs]⟩
        · rw [hfs] at h; exact absurd h (by simp)

/-- Witness for C7: a one-field line fails, and extra spacing between the
two fields still parses into the same IP and domain. -/
theorem C7_witness :
    ((∃ e, parseDNSRecord "127.0.0.1" = .error e) ↔
       goTrimSpace "127.0.0.1" = ""
       ∨ (goFields (hostCommentSplit (goTrimSpace "127.0.0.1")).2).length < 2)
    ∧ (∃ r, parseDNSRecord "127.0.0.1    example.com" = .ok r
        ∧ r.IP = "127.0.0.1" ∧ r.Domain = "example.com") := by
  constructor
  · exact (C7_host_parse_error_iff_too_few_fields "127.0.0.1").1
  · exact (C7_host_parse_error_iff_too_few_fields "127.0.0.1    example.com").2
      "127.0.0.1" "example.com" [] (by decide)

/-- C5: with at least three whitespace-separated fields before any
comment, an integer third field becomes the TTL (with fields four onward
joined by spaces and appended to the comment), while a non-integer third
field is not an error: fields three onward are appended to the comment the
same way and `HasTTL` stays false. -/
theorem C5_host_ttl_or_comment_fallthrough (raw : String) (p0 p1 f3 : String)
    (rest : List String)
    (hf : goFields (hostCommentSplit (goTrimSpace raw)).2 = p0 :: p1 :: f3 :: rest) :
    (∀ t, goAtoi f3 = some t →
       parseDNSRecord raw = .ok (DNSRecord.mk p0 p1 t true
         (if rest = [] then (hostCommentSplit (goTrimSpace raw)).1
          else joinComment (hostCommentSplit (goTrimSpace raw)).1
            (String.intercalate " " rest)) raw))
    ∧ (goAtoi f3 = none →
       parseDNSRecord raw = .ok (DNSRecord.mk p0 p1 0 false
         (joinComment (hostCommentSplit (goTrimSpace raw)).1
           (String.intercalate " " (f3 :: rest))) raw)) := by
  have hne := trim_ne_of_fields_cons raw p0 (p1 :: f3 :: rest) hf
  constructor
  · intro t hA
    cases rest with
    | nil => simp [parseDNSRecord, hne, hf, hA]
    | cons x xs => simp [parseDNSRecord, hne, hf, hA]
  · intro hA
    simp [parseDNSRecord, hne, hf, hA]

/-- Witness for C5: the spec's example line parses to `HasTTL`, TTL 3600
and comment `"test comment"`; a non-integer third field on the same line
shape falls through to the comment with `HasTTL` false. -/
theorem C5_witness :
    parseDNSRecord "127.0.0.1 example.com 3600 # test comment"
      = .ok (DNSRecord.mk "127.0.0.1" "example.com" 3600 true "test comment"
          "127.0.0.1 example.com 3600 # test comment")
    ∧ parseDNSRecord "127.0.0.1 example.com sixty"
      = .ok (DNSRecord.mk "127.0.0.1" "example.com" 0 false "sixty"
          "127.0.0.1 example.com sixty") := by
  constructor
  · exact (C5_host_ttl_or_comment_fallthrough "127.0.0.1 example.com 3600 # test comment"
      "127.0.0.1" "example.com" "3600" [] (by decide)).1 3600 (by decide)
  · exact (C5_host_ttl_or_comment_fallthrough "127.0.0.1 example.com sixty"
      "127.0.0.1" "example.com" "sixty" [] (by decide)).2 (by decide)

/-- C6: an alias tuple fails to parse exactly when the comma-split field
count is outside two or three, or when a present third field is non-empty
after trimming and is not an integer; on success the domain and target are
the trimmed first and second fields, and a non-empty numeric third field
sets `HasTTL` and the TTL. -/
theorem C6_cname_parse_error_characterisation (raw : String) :
    ((∃ e, parseCNAMERecord raw = .error e) ↔
       ((goSplitCommaStr raw).length < 2 ∨ (goSplitCommaStr raw).length > 3 ∨
        ((goSplitCommaStr raw).length = 3 ∧
          goTrimSpace ((goSplitCommaStr raw).getD 2 "") ≠ "" ∧
          goAtoi (goTrimSpace ((goSplitCommaStr raw).getD 2 "")) = none)))
    ∧ (∀ r, parseCNAMERecord raw = .ok r →
        r.Domain = goTrimSpace ((goSplitCommaStr raw).getD 0 "")
        ∧ r.Target = goTrimSpace ((goSplitCommaStr raw).getD 1 "")
        ∧ (∀ n, (goSplitCommaStr raw).length = 3 →
             goAtoi (goTrimSpace ((goSplitCommaStr raw).getD 2 "")) = some n →
             goTrimSpace ((goSplitCommaStr raw).getD 2 "") ≠ "" →
             r.HasTTL = true ∧ r.TTL = n)) := by
  rcases hs : goSplitCommaStr raw with _ | ⟨d, _ | ⟨t, _ | ⟨f, _ | ⟨x, xs⟩⟩⟩⟩
  · refine ⟨⟨fun _ => Or.inl (by simp),
      fun _ => ⟨.invalidCNAMERecord raw, by simp [parseCNAMERecord, hs]⟩⟩, ?_⟩
    intro r hr
    simp [parseCNAMERecord, hs] at hr
  · refine ⟨⟨fun _ => Or.inl (by simp),
      fun _ => ⟨.invalidCNAMERecord raw, by simp [parseCNAMERecord, hs]⟩⟩, ?_⟩
    intro r hr
    simp [parseCNAMERecord, hs] at hr
  · -- exactly two fields: always parses
    have hok : parseCNAMERecord raw
        = .ok (CNAMERecord.mk (goTrimSpace d) (goTrimSpace t) 0 false (goTrimSpace raw)) := by
      simp [parseCNAMERecord, hs]
    refine ⟨⟨?_, fun h => absurd h (by simp)⟩, ?_⟩
    · rintro ⟨e, he⟩
      rw [hok] at he
      exact Except.noConfusion he
    · intro r hr
      rw [hok] at hr
      obtain rfl := Except.ok.inj hr
      exact ⟨by simp, by simp, fun n hlen => by simp at hlen⟩
  · -- exactly three fields
    by_cases hts : goTrimSpace f = ""
    · have hok : parseCNAMERecord raw
          = .ok (CNAMERecord.mk (goTrimSpace d) (goTrimSpace t) 0 false (goTrimSpace raw)) := by
        simp [parseCNAMERecord, hs, hts]
      refine ⟨⟨?_, fun h => absurd h (by simp [hts])⟩, ?_⟩
      · rintro ⟨e, he⟩
        rw [hok] at he
        exact Except.noConfusion he
      · intro r hr
        rw [hok] at hr
        obtain rfl := Except.ok.inj hr
        refine ⟨by simp, by simp, fun n _ _ hne => ?_⟩
        simp [hts] at hne
    · cases hA : goAtoi (goTrimSpace f) with
      | none =>
        have herr : parseCNAMERecord raw = .error (.invalidCNAMETTL raw) := by
          simp [parseCNAMERecord, hs, hts, hA]
        refine ⟨⟨fun _ => Or.inr (Or.inr ⟨by simp, by simpa using hts, by simpa using hA⟩),
          fun _ => ⟨.invalidCNAMETTL raw, herr⟩⟩, ?_⟩
        intro r hr
        rw [herr] at hr
        exact Except.noConfusion hr
      | some n0 =>
        have hok : parseCNAMERecord raw
            = .ok (CNAMERecord.mk (goTrimSpace d) (goTrimSpace t) n0 true (goTrimSpace raw)) := by
          simp [parseCNAMERecord, hs, hts, hA]
        refine ⟨⟨?_, fun h => absurd h (by simp [hA])⟩, ?_⟩
        · rintro ⟨e, he⟩
          rw [hok] at he
          exact Except.noConfusion he
        · intro r hr
          rw [hok] at hr
          obtain rfl := Except.ok.inj hr
          refine ⟨by simp, by simp, fun n _ hn _ => ?_⟩
          have hn2 : some n0 = some n := hA.symm.trans (by simpa using hn)
          obtain rfl := Option.some.inj hn2
          exact ⟨rfl, rfl⟩
  · -- four or more fields: always an error
    have hgt : (d :: t :: f :: x :: xs).length > 3 := by
      simp only [List.length_cons]
      omega
    have herr : parseCNAMERecord raw = .error (.invalidCNAMERecord raw) := by
      simp [parseCNAMERecord, hs, hgt]
    refine ⟨⟨fun _ => Or.inr (Or.inl hgt), fun _ => ⟨.invalidCNAMERecord raw, herr⟩⟩, ?_⟩
    intro r hr
    rw [herr] at hr
    exact Except.noConfusion hr

/-- Witness for C6: the spec's non-numeric-TTL tuple and a one-field tuple
both fail; the spec's spaced three-field tuple parses with domain, target
and TTL extracted. -/
theorem C6_witness :
    (∃ e, parseCNAMERecord "example.com,target.test,not-a-number" = .error e)
    ∧ (∃ e, parseCNAMERecord "example.com" = .error e)
    ∧ (∀ r, parseCNAMERecord "example.com , target.test , 3600" = .ok r →
        r.Domain = "example.com" ∧ r.Target = "target.test") := by
  refine ⟨?_, ?_, ?_⟩
  · exact (C6_cname_parse_error_characterisation "example.com,target.test,not-a-number").1.mpr
      (Or.inr (Or.inr (by decide)))
  · exact (C6_cname_parse_error_characterisation "example.com").1.mpr (Or.inl (by decide))
  · intro r hr
    obtain ⟨h1, h2, -⟩ :=
      (C6_cname_parse_error_characterisation "example.com , target.test , 3600").2 r hr
    exact ⟨h1, h2⟩

theorem jsonUnmarshalPayload_empty : jsonUnmarshalPayload "" = none := rfl

/-- C9: when the body decodes as the error envelope with the error object
present, the classifier builds the resource-specific typed error from the
status and envelope fields; when the body is empty, fails to decode, or
lacks the error object, it builds the generic error carrying only the
status code and the raw body text. -/
theorem C9_error_classification (status : Int) (body : String) :
    (∀ p d, jsonUnmarshalPayload body = some p → p.Error = some d →
       newDNSAPIError status body = .dnsAPIError status d.Key d.Message d.Hint
       ∧ newCNAMEAPIError status body = .cnameAPIError status d.Key d.Message d.Hint)
    ∧ (body = "" ∨ jsonUnmarshalPayload body = none
        ∨ (∃ p, jsonUnmarshalPayload body = some p ∧ p.Error = none) →
       newDNSAPIError status body = .unexpectedStatus status body
       ∧ newCNAMEAPIError status body = .unexpectedStatus status body) := by
  constructor
  · intro p d hp hd
    have hbody : body ≠ "" := by
      intro h
      rw [h, jsonUnmarshalPayload_empty] at hp
      exact Option.noConfusion hp
    have hparse : parseAPIError body = .ok d := by
      simp [parseAPIError, hbody, hp, hd]
    constructor
    · simp [newDNSAPIError, hparse]
    · simp [newCNAMEAPIError, hparse]
  · intro h
    have hparse : ∃ e, parseAPIError body = .error e := by
      rcases h with h | h | ⟨p, hp, hperr⟩
      · exact ⟨.emptyResponseBody, by simp [parseAPIError, h]⟩
      · by_cases hbody : body = ""
        · exact ⟨.emptyResponseBody, by simp [parseAPIError, hbody]⟩
        · exact ⟨.jsonUnmarshalFailed, by simp [parseAPIError, hbody, h]⟩
      · by_cases hbody : body = ""
        · exact ⟨.emptyResponseBody, by simp [parseAPIError, hbody]⟩
        · exact ⟨.missingErrorPayload, by simp [parseAPIError, hbody, hp, hperr]⟩
    obtain ⟨e, he⟩ := hparse
    constructor
    · simp [newDNSAPIError, he]
    · simp [newCNAMEAPIError, he]

/-- Witness for C9: the spec's 400 envelope yields the typed errors with
the envelope's key and message, and an empty 404 body yields the generic
status-only error. -/
theorem C9_witness :
    (newDNSAPIError 400
        "\x7b\"error\":\x7b\"key\":\"bad_request\",\"message\":\"duplicate\",\"hint\":null\x7d\x7d"
      = .dnsAPIError 400 "bad_request" "duplicate" .null
     ∧ newCNAMEAPIError 400
        "\x7b\"error\":\x7b\"key\":\"bad_request\",\"message\":\"duplicate\",\"hint\":null\x7d\x7d"
      = .cnameAPIError 400 "bad_request" "duplicate" .null)
    ∧ (newDNSAPIError 404 "" = .unexpectedStatus 404 ""
       ∧ newCNAMEAPIError 404 "" = .unexpectedStatus 404 "") := by
  constructor
  · exact (C9_error_classification 400
      "\x7b\"error\":\x7b\"key\":\"bad_request\",\"message\":\"duplicate\",\"hint\":null\x7d\x7d").1
      { Error := some { Key := "bad_request", Message := "duplicate", Hint := .null } }
      { Key := "bad_request", Message := "duplicate", Hint := .null }
      rfl rfl
  · exact (C9_error_classification 404 "").2 (Or.inl rfl)

/-- C1 counterexample: for the host line `"1.2.3.4 example.com 300"` the
record obtained by `Get` carries the non-empty raw line, yet the DELETE
path segment is built from the parsed IP and domain only — not the
percent-escaped raw line the claim prescribes (which would also carry the
TTL field). -/
theorem C1_counterexample :
    localDNSGet ["1.2.3.4 example.com 300"] "example.com"
      = .ok (DNSRecord.mk "1.2.3.4" "example.com" 300 true "" "1.2.3.4 example.com 300")
    ∧ (localDNSDelete ["1.2.3.4 example.com 300"] 204 "" "example.com").2
      = some "/api/config/dns/hosts/1.2.3.4%20example.com"
    ∧ specHostSegment (DNSRecord.mk "1.2.3.4" "example.com" 300 true "" "1.2.3.4 example.com 300")
      = "1.2.3.4%20example.com%20300"
    ∧ ("/api/config/dns/hosts/1.2.3.4%20example.com" : String)
      ≠ "/api/config/dns/hosts/" ++ "1.2.3.4%20example.com%20300" := by
  exact ⟨rfl, rfl, rfl, by decide⟩

/-- C1 (amended): the host-record deletion path segment is always the
literal concatenation `<IP>%20<Domain>` of the fetched record's parsed IP
and Domain fields — the stored raw line is never consulted and no
percent-escaping is applied; the creation segment is likewise the literal
`<IP>%20<domain>` built from the call arguments. -/
theorem C1_amended_host_segments (hosts after : List String) (delStatus putStatus : Int)
    (delBody putBody : String) (domain IP : String) (record : DNSRecord)
    (hget : localDNSGet hosts domain = .ok record) :
    (localDNSDelete hosts delStatus delBody domain).2
      = some ("/api/config/dns/hosts/" ++ (record.IP ++ "%20" ++ record.Domain))
    ∧ (localDNSCreate putStatus putBody after domain IP).2
      = "/api/config/dns/hosts/" ++ (IP ++ "%20" ++ domain) := by
  constructor
  · by_cases h : delStatus = 204 <;> simp [localDNSDelete, hget, h]
  · by_cases h : putStatus = 201 <;> simp [localDNSCreate, h]

/-- Witness for the amended C1 at a concrete collection: the delete and
create segments are the plain `%20`-joined parsed fields. -/
theorem C1_amended_witness :
    (localDNSDelete ["1.2.3.4 example.com 300"] 204 "" "example.com").2
      = some ("/api/config/dns/hosts/" ++ ("1.2.3.4" ++ "%20" ++ "example.com"))
    ∧ (localDNSCreate 201 "" [] "example.com" "1.2.3.4").2
      = "/api/config/dns/hosts/" ++ ("1.2.3.4" ++ "%20" ++ "example.com") := by
  exact C1_amended_host_segments ["1.2.3.4 example.com 300"] [] 204 201 "" "" "example.com"
    "1.2.3.4" (DNSRecord.mk "1.2.3.4" "example.com" 300 true "" "1.2.3.4 example.com 300") rfl

theorem escapeCNAMEValue_no_comma (v : String) :
    ∀ c ∈ (escapeCNAMEValue v).data, c ≠ ',' := by
  intro c hc
  simp only [escapeCNAMEValue, List.mem_flatMap] at hc
  obtain ⟨a, _, hc⟩ := hc
  by_cases h : a = ','
  · rw [if_pos h] at hc
    simp at hc
    rcases hc with rfl | rfl | rfl <;> decide
  · rw [if_neg h] at hc
    simp at hc
    exact hc ▸ h

theorem intercalate_comma_two (a b : String) :
    String.intercalate "," [a, b] = a ++ "," ++ b := rfl

theorem intercalate_comma_three (a b c : String) :
    String.intercalate "," [a, b, c] = a ++ "," ++ b ++ "," ++ c := rfl

/-- C2 counterexample: the parsed tuple `", b"` yields a record with a
non-empty raw tuple but an empty domain; the code then reconstructs the
tuple instead of re-using the raw one, so the encoded segment differs from
the claim's (the escaped raw tuple). -/
theorem C2_counterexample :
    parseCNAMERecord ", b" = .ok (CNAMERecord.mk "" "b" 0 false ", b")
    ∧ (CNAMERecord.mk "" "b" 0 false ", b").raw ≠ ""
    ∧ encodeCNAMERecord (CNAMERecord.mk "" "b" 0 false ", b") = "%2Cb"
    ∧ claimCNAMESegment (CNAMERecord.mk "" "b" 0 false ", b") = "%2C%20b"
    ∧ ("%2Cb" : String) ≠ "%2C%20b" := by
  exact ⟨rfl, by decide, rfl, rfl, by decide⟩

/-- C2 (amended): the alias path segment re-uses the raw tuple only when
the record carries one and also has a non-empty domain; otherwise it is
`"<Domain>,<Target>[,<TTL>]"` from the trimmed domain and target, with the
TTL appended exactly when `HasTTL`; either way the value is percent-escaped
for a URL path segment with commas rendered as `%2C`, so the result never
contains a literal comma. -/
theorem C2_amended_cname_segment (record : CNAMERecord) :
    encodeCNAMERecord record = amendedCNAMESegment record
    ∧ ∀ c ∈ (encodeCNAMERecord record).data, c ≠ ',' := by
  constructor
  · by_cases h : record.raw ≠ "" ∧ record.Domain ≠ ""
    · simp [encodeCNAMERecord, amendedCNAMESegment, h]
    · by_cases ht : record.HasTTL
      · simp [encodeCNAMERecord, amendedCNAMESegment, h, ht, intercalate_comma_three,
          String.append_assoc]
      · simp [encodeCNAMERecord, amendedCNAMESegment, h, ht, intercalate_comma_two]
  · by_cases h : record.raw ≠ "" ∧ record.Domain ≠ ""
    · simp only [encodeCNAMERecord, if_pos h]
      exact escapeCNAMEValue_no_comma record.raw
    · by_cases ht : record.HasTTL
      · simp only [encodeCNAMERecord, if_neg h, ht, if_pos]
        exact escapeCNAMEValue_no_comma _
      · simp only [encodeCNAMERecord, if_neg h]
        exact escapeCNAMEValue_no_comma _

/-- Witness for the amended C2 at the spec's TTL-bearing alias record: the
code encoder agrees with the amended segment, and the comma-freedom
conjunct holds at the escaped character `%` of that segment. -/
theorem C2_amended_witness :
    encodeCNAMERecord (CNAMERecord.mk "example.com" "target.test" 3600 true "")
      = amendedCNAMESegment (CNAMERecord.mk "example.com" "target.test" 3600 true "")
    ∧ ('%' : Char) ≠ ',' :=
  ⟨(C2_amended_cname_segment (CNAMERecord.mk "example.com" "target.test" 3600 true "")).1,
   (C2_amended_cname_segment (CNAMERecord.mk "example.com" "target.test" 3600 true "")).2
     '%' (by decide)⟩
